import Mathlib

/-!
Verification of the hierarchical (multi-granularity) lock manager.

The mode algebra is embedded from src/locktype.rs: the five lock modes,
their numeric indices, and the five constant tables
(LOCK_TYPE_IMPLICIT_PARENT_TYPE, LOCK_TYPE_COMPATIBLE_WITH,
LOCK_TYPE_UPGRADABLE_TO, LOCK_TYPE_SUPPORTS_CHILDREN, and the
min_upgradable scan).

The kernel operations are embedded from src/kernel.rs: per-node grant
counters, readiness evaluation for acquire and upgrade, the parent-grant
handling of ensure_parent_lock, and the release performed by a lock
instance destructor.  Since every claim under verification concerns the
deterministic (single-thread observable) behaviour, the mutex-protected
state is threaded explicitly and a condition-variable wait that would
never return without an external notification is represented by a
distinguished `blocked` outcome.
-/

/-- Lock modes of the manager (src/locktype.rs, `enum LockType`). -/
inductive LockType where
  | IntentionShared
  | IntentionExclusive
  | Shared
  | SharedIntentionExclusive
  | Exclusive
deriving DecidableEq, Repr, Fintype

/-- Numeric index of a mode (src/locktype.rs, `LockType::index`). -/
def LockType.index : LockType → Nat
  | .IntentionShared => 0
  | .IntentionExclusive => 1
  | .Shared => 2
  | .SharedIntentionExclusive => 3
  | .Exclusive => 4

/-- The canonical mode order (src/locktype.rs, `LOCK_TYPES`). -/
def lock_types : List LockType :=
  [.IntentionShared, .IntentionExclusive, .Shared, .SharedIntentionExclusive, .Exclusive]

/-- Implicit parent mode table (src/locktype.rs, `LOCK_TYPE_IMPLICIT_PARENT_TYPE`). -/
def LockType.implicit_parent_type : LockType → LockType
  | .IntentionShared => .IntentionShared
  | .IntentionExclusive => .IntentionExclusive
  | .Shared => .IntentionShared
  | .SharedIntentionExclusive => .IntentionExclusive
  | .Exclusive => .IntentionExclusive

/-- Compatibility table (src/locktype.rs, `LOCK_TYPE_COMPATIBLE_WITH`), row by row. -/
def LockType.compatible_with : LockType → LockType → Bool
  | .IntentionShared, .IntentionShared => true
  | .IntentionShared, .IntentionExclusive => true
  | .IntentionShared, .Shared => true
  | .IntentionShared, .SharedIntentionExclusive => true
  | .IntentionShared, .Exclusive => false
  | .IntentionExclusive, .IntentionShared => true
  | .IntentionExclusive, .IntentionExclusive => true
  | .IntentionExclusive, .Shared => false
  | .IntentionExclusive, .SharedIntentionExclusive => false
  | .IntentionExclusive, .Exclusive => false
  | .Shared, .IntentionShared => true
  | .Shared, .IntentionExclusive => false
  | .Shared, .Shared => true
  | .Shared, .SharedIntentionExclusive => false
  | .Shared, .Exclusive => false
  | .SharedIntentionExclusive, .IntentionShared => true
  | .SharedIntentionExclusive, .IntentionExclusive => false
  | .SharedIntentionExclusive, .Shared => false
  | .SharedIntentionExclusive, .SharedIntentionExclusive => false
  | .SharedIntentionExclusive, .Exclusive => false
  | .Exclusive, _ => false

/-- Upgrade reachability table (src/locktype.rs, `LOCK_TYPE_UPGRADABLE_TO`), row by row. -/
def LockType.upgradable_to : LockType → LockType → Bool
  | .IntentionShared, _ => true
  | .IntentionExclusive, .IntentionShared => false
  | .IntentionExclusive, .IntentionExclusive => true
  | .IntentionExclusive, .Shared => false
  | .IntentionExclusive, .SharedIntentionExclusive => true
  | .IntentionExclusive, .Exclusive => true
  | .Shared, .IntentionShared => false
  | .Shared, .IntentionExclusive => false
  | .Shared, .Shared => true
  | .Shared, .SharedIntentionExclusive => true
  | .Shared, .Exclusive => true
  | .SharedIntentionExclusive, .IntentionShared => false
  | .SharedIntentionExclusive, .IntentionExclusive => false
  | .SharedIntentionExclusive, .Shared => false
  | .SharedIntentionExclusive, .SharedIntentionExclusive => true
  | .SharedIntentionExclusive, .Exclusive => true
  | .Exclusive, .IntentionShared => false
  | .Exclusive, .IntentionExclusive => false
  | .Exclusive, .Shared => false
  | .Exclusive, .SharedIntentionExclusive => false
  | .Exclusive, .Exclusive => true

/-- Child-support table (src/locktype.rs, `LOCK_TYPE_SUPPORTS_CHILDREN`), row by row. -/
def LockType.supports_children : LockType → LockType → Bool
  | .IntentionShared, .IntentionShared => true
  | .IntentionShared, .IntentionExclusive => false
  | .IntentionShared, .Shared => true
  | .IntentionShared, .SharedIntentionExclusive => false
  | .IntentionShared, .Exclusive => false
  | .IntentionExclusive, _ => true
  | .Shared, .IntentionShared => true
  | .Shared, .IntentionExclusive => false
  | .Shared, .Shared => true
  | .Shared, .SharedIntentionExclusive => false
  | .Shared, .Exclusive => false
  | .SharedIntentionExclusive, _ => true
  | .Exclusive, _ => true

/-- The `min_upgradable` scan (src/locktype.rs, `LockType::min_upgradable`):
first mode of `LOCK_TYPES` upgradable from both arguments, with the
trailing `return LockType::Exclusive` fallback after the loop. -/
def LockType.min_upgradable (a b : LockType) : LockType :=
  match lock_types.find? (fun lt => a.upgradable_to lt && b.upgradable_to lt) with
  | some lt => lt
  | none => LockType.Exclusive

/-- Error kinds of the manager (src/common.rs, `LockError`), with the payload
fields the claims under verification refer to. -/
inductive LockError where
  | UnknownError
  | LockBusy
  | LockAlreadyUsed
  | InvalidParentLock
  | InvalidParentLockType (required actual : LockType)
  | InvalidUpgrade (original requested : LockType)
deriving DecidableEq, Repr

/-- The per-mode grant counters of one kernel node
(src/kernel.rs, `LockKernelState.counts : [usize; LOCK_TYPE_COUNT]`). -/
structure Counts where
  cIS : Nat
  cIX : Nat
  cS : Nat
  cSIX : Nat
  cX : Nat
deriving DecidableEq, Repr

/-- Read the counter of one mode (`counts[lt.index()]`). -/
def Counts.get (c : Counts) : LockType → Nat
  | .IntentionShared => c.cIS
  | .IntentionExclusive => c.cIX
  | .Shared => c.cS
  | .SharedIntentionExclusive => c.cSIX
  | .Exclusive => c.cX

/-- Write the counter of one mode (`counts[lt.index()] = n`). -/
def Counts.set (c : Counts) : LockType → Nat → Counts
  | .IntentionShared, n => ⟨n, c.cIX, c.cS, c.cSIX, c.cX⟩
  | .IntentionExclusive, n => ⟨c.cIS, n, c.cS, c.cSIX, c.cX⟩
  | .Shared, n => ⟨c.cIS, c.cIX, n, c.cSIX, c.cX⟩
  | .SharedIntentionExclusive, n => ⟨c.cIS, c.cIX, c.cS, n, c.cX⟩
  | .Exclusive, n => ⟨c.cIS, c.cIX, c.cS, c.cSIX, n⟩

/-- `counts[t.index()] += 1`. -/
def Counts.inc (c : Counts) (t : LockType) : Counts := c.set t (c.get t + 1)

/-- `counts[t.index()] -= 1`. -/
def Counts.dec (c : Counts) (t : LockType) : Counts := c.set t (c.get t - 1)

/-- All-zero counters (src/locktype.rs, `LOCK_EMPTY_COUNTS`). -/
def Counts.zero : Counts := ⟨0, 0, 0, 0, 0⟩

/-- Counters of a node holding exactly one grant of mode `t`. -/
def singleCount (t : LockType) : Counts := Counts.zero.inc t

/-- Outcome of a kernel call: a return value with the resulting state, an
error with the resulting state, or entry into a condition-variable wait
that no further step of the modelled thread can end. -/
inductive KResult (σ : Type) (α : Type) where
  | ok (s : σ) (a : α)
  | err (e : LockError) (s : σ)
  | blocked
deriving DecidableEq, Repr

/-- `true` when the outcome is a successful return. -/
def KResult.isOk {σ α : Type} : KResult σ α → Bool
  | .ok _ _ => true
  | _ => false

/-- The acquire readiness loop body (src/kernel.rs, `LockKernelRc::acquire`
lines 131-139): ready unless some mode has a positive count and is
incompatible with the requested mode. -/
def acquireReady (c : Counts) (m : LockType) : Bool :=
  lock_types.all fun lt => !(decide (0 < c.get lt) && !(m.compatible_with lt))

/-- The upgrade readiness loop body (src/kernel.rs, `LockKernelRc::upgrade`
lines 175-185): a count of 1 is tolerated for the mode being upgraded
from, 0 for every other mode. -/
def upgradeReady (c : Counts) (f t : LockType) : Bool :=
  lock_types.all fun lt =>
    !(decide ((if lt = f then 1 else 0) < c.get lt) && !(t.compatible_with lt))

/-- `LockKernelRc::acquire` on a node without a parent: `ensure_parent_lock`
returns `None` immediately, then the readiness wait runs and on success the
count of the requested mode is incremented; the returned value is the new
instance's mode. -/
def acquireRoot (c : Counts) (m : LockType) (tryOnly : Bool) : KResult Counts LockType :=
  if acquireReady c m then .ok (c.inc m) m
  else if tryOnly then .err .LockBusy c
  else .blocked

/-- `LockKernelRc::upgrade` on a node without a parent: the `from == to`
shortcut, the upgradability check, then the readiness wait and the
decrement/increment pair. -/
def upgradeRoot (c : Counts) (f t : LockType) (tryOnly : Bool) : KResult Counts Unit :=
  if f = t then .ok c ()
  else if !(f.upgradable_to t) then .err (.InvalidUpgrade f t) c
  else if upgradeReady c f t then .ok ((c.dec f).inc t) ()
  else if tryOnly then .err .LockBusy c
  else .blocked

example : acquireRoot (singleCount .Shared) .IntentionShared true
    = .ok ((singleCount .Shared).inc .IntentionShared) .IntentionShared := by decide

example : acquireRoot (singleCount .Shared) .Exclusive true
    = .err .LockBusy (singleCount .Shared) := by decide

example : upgradeRoot (singleCount .Shared) .Shared .Exclusive true
    = .ok (singleCount .Exclusive) () := by decide

example : upgradeRoot (singleCount .Shared) .Shared .IntentionExclusive true
    = .err (.InvalidUpgrade .Shared .IntentionExclusive) (singleCount .Shared) := by decide

example : LockType.IntentionExclusive.min_upgradable .Shared = .SharedIntentionExclusive := by decide

/-- A two-node kernel tree: a root parent node and one child node whose
`parent` back-reference targets the root (src/kernel.rs, `LockKernel` with
`parent: Option<LockKernelRc>`). -/
structure Sys where
  parent : Counts
  child : Counts
deriving DecidableEq, Repr

/-- The observable state of an explicit parent grant (an
`Arc<LockInstance>` passed as `using_parent`): whether `ptr_eq` against the
child's parent kernel holds, and the instance's current mode
(src/kernel.rs, `LockInstanceState.lock_type`). -/
structure Grant where
  ptrEq : Bool
  mode : LockType
deriving DecidableEq, Repr

/-- The instance produced by an acquire on the child with no explicit
parent grant: its own mode and the mode of the implicitly acquired parent
instance it keeps alive. -/
structure ChildInst where
  mode : LockType
  parentMode : LockType
deriving DecidableEq, Repr

/-- `LockKernelRc::acquire` on the child node with `using_parent = None`:
`ensure_parent_lock` recursively acquires `implicit_parent(m)` on the root
parent; on a child-side `LockBusy` the freshly acquired parent instance is
dropped by the early return, releasing its count on the parent. -/
def acquireChildNoGrant (s : Sys) (m : LockType) (tryOnly : Bool) :
    KResult Sys ChildInst :=
  match acquireRoot s.parent m.implicit_parent_type tryOnly with
  | .blocked => .blocked
  | .err e pc => .err e ⟨pc, s.child⟩
  | .ok pc pm =>
    if acquireReady s.child m then .ok ⟨pc, s.child.inc m⟩ ⟨m, pm⟩
    else if tryOnly then .err .LockBusy ⟨pc.dec pm, s.child⟩
    else .blocked

/-- `LockKernelRc::ensure_parent_lock` on the child node with an explicit
grant (src/kernel.rs lines 204-230): the `ptr_eq` identity check, the
required/actual index comparison, and the in-place `p.upgrade` of the grant
(which runs `LockKernelRc::upgrade` on the root parent node and, on
success, stores the new mode in the grant). -/
def ensureParentGrant (s : Sys) (m : LockType) (g : Grant) (autoUpgrade tryOnly : Bool) :
    KResult (Sys × Grant) Unit :=
  if !g.ptrEq then .err .InvalidParentLock (s, g)
  else
    let required := m.implicit_parent_type
    let actual := g.mode
    if required.index > actual.index then
      if autoUpgrade then
        match upgradeRoot s.parent actual (actual.min_upgradable required) tryOnly with
        | .ok pc _ => .ok (⟨pc, s.child⟩, ⟨g.ptrEq, actual.min_upgradable required⟩) ()
        | .err e pc => .err e (⟨pc, s.child⟩, g)
        | .blocked => .blocked
      else .err (.InvalidParentLockType required actual) (s, g)
    else if required.index < actual.index then
      if !(required.upgradable_to actual) then
        if autoUpgrade then
          match upgradeRoot s.parent actual (required.min_upgradable actual) tryOnly with
          | .ok pc _ => .ok (⟨pc, s.child⟩, ⟨g.ptrEq, required.min_upgradable actual⟩) ()
          | .err e pc => .err e (⟨pc, s.child⟩, g)
          | .blocked => .blocked
        else .err (.InvalidParentLockType required actual) (s, g)
      else .ok (s, g) ()
    else .ok (s, g) ()

/-- `LockKernelRc::acquire` on the child node with an explicit parent grant:
`ensure_parent_lock` first, then the readiness wait on the child; a
child-side `LockBusy` does not undo an upgrade already applied to the
caller-held grant (the `Ok(Some(p))` value dropped on the error path is
only a clone of the caller's reference). -/
def acquireChildGrant (s : Sys) (m : LockType) (g : Grant) (autoUpgrade tryOnly : Bool) :
    KResult (Sys × Grant) LockType :=
  match ensureParentGrant s m g autoUpgrade tryOnly with
  | .blocked => .blocked
  | .err e st => .err e st
  | .ok (s1, g1) _ =>
    if acquireReady s1.child m then .ok (⟨s1.parent, s1.child.inc m⟩, g1) m
    else if tryOnly then .err .LockBusy (s1, g1)
    else .blocked

/-- `LockKernelRc::upgrade` on the child node (src/kernel.rs lines 161-198):
the `from == to` shortcut fires before the upgradability check, the parent
handling and the readiness wait.  With `using_parent = None` the instance
returned by `ensure_parent_lock` is discarded by the `?;` statement, so the
implicitly acquired parent grant is released again before the child
readiness phase. -/
def upgradeChild (s : Sys) (f t : LockType) (g : Option Grant) (autoUpgrade tryOnly : Bool) :
    KResult (Sys × Option Grant) Unit :=
  if f = t then .ok (s, g) ()
  else if !(f.upgradable_to t) then .err (.InvalidUpgrade f t) (s, g)
  else
    match g with
    | some gr =>
      match ensureParentGrant s t gr autoUpgrade tryOnly with
      | .blocked => .blocked
      | .err e (s1, g1) => .err e (s1, some g1)
      | .ok (s1, g1) _ =>
        if upgradeReady s1.child f t then .ok (⟨s1.parent, (s1.child.dec f).inc t⟩, some g1) ()
        else if tryOnly then .err .LockBusy (s1, some g1)
        else .blocked
    | none =>
      match acquireRoot s.parent t.implicit_parent_type tryOnly with
      | .blocked => .blocked
      | .err e pc => .err e (⟨pc, s.child⟩, none)
      | .ok pc pm =>
        if upgradeReady s.child f t then .ok (⟨pc.dec pm, (s.child.dec f).inc t⟩, none) ()
        else if tryOnly then .err .LockBusy (⟨pc.dec pm, s.child⟩, none)
        else .blocked

/-- `LockInstance::upgrade` on an instance of current mode `f` held on the
child node (src/kernel.rs lines 286-293): delegates to the kernel upgrade
with the instance's stored parent grant and, on success only, stores the
requested mode as the instance's new mode (returned here as the value). -/
def lockInstanceUpgrade (s : Sys) (f : LockType) (g : Option Grant) (t : LockType)
    (autoUpgrade tryOnly : Bool) : KResult (Sys × Option Grant) LockType :=
  match upgradeChild s f t g autoUpgrade tryOnly with
  | .ok st _ => .ok st t
  | .err e st => .err e st
  | .blocked => .blocked

example : acquireChildNoGrant ⟨Counts.zero, Counts.zero⟩ .Shared true
    = .ok ⟨singleCount .IntentionShared, singleCount .Shared⟩ ⟨.Shared, .IntentionShared⟩ := by decide

example : acquireChildGrant ⟨singleCount .IntentionShared, Counts.zero⟩ .Exclusive
    ⟨true, .IntentionShared⟩ true true
    = .ok (⟨singleCount .IntentionExclusive, singleCount .Exclusive⟩, ⟨true, .IntentionExclusive⟩)
      .Exclusive := by decide

example : acquireChildGrant ⟨singleCount .IntentionShared, Counts.zero⟩ .Exclusive
    ⟨true, .IntentionShared⟩ false true
    = .err (.InvalidParentLockType .IntentionExclusive .IntentionShared)
      (⟨singleCount .IntentionShared, Counts.zero⟩, ⟨true, .IntentionShared⟩) := by decide

/-- A single root kernel node together with the lock instances created on
it.  Each slot of `insts` is one instance: `some f` while the instance is
live with current mode `f`, `none` once its destructor has run. -/
structure NodeSt where
  counts : Counts
  insts : List (Option LockType)
deriving DecidableEq, Repr

/-- One operation of a client session on the node: a try-acquire (which on
success creates a new instance), a try-upgrade of instance `i`, or the
destruction of instance `i` (src/kernel.rs, `impl Drop for LockInstance`:
release of the instance's current mode). -/
inductive Op where
  | acq (m : LockType)
  | upg (i : Nat) (t : LockType)
  | rel (i : Nat)
deriving DecidableEq, Repr

/-- Execute one operation.  Failed acquires and upgrades, and operations
naming a destroyed or never-created instance, leave the state unchanged. -/
def step (st : NodeSt) (op : Op) : NodeSt :=
  match op with
  | .acq m =>
    match acquireRoot st.counts m true with
    | .ok c _ => ⟨c, st.insts ++ [some m]⟩
    | _ => st
  | .upg i t =>
    match st.insts[i]? with
    | some (some f) =>
      match upgradeRoot st.counts f t true with
      | .ok c _ => ⟨c, st.insts.set i (some t)⟩
      | _ => st
    | _ => st
  | .rel i =>
    match st.insts[i]? with
    | some (some f) => ⟨st.counts.dec f, st.insts.set i none⟩
    | _ => st

/-- Run a session from the fresh node (src/kernel.rs, `LockKernel::new`:
counts start at `LOCK_EMPTY_COUNTS`). -/
def run (ops : List Op) : NodeSt := ops.foldl step ⟨Counts.zero, []⟩

/-- Contribution of one instance slot to the count of mode `m`. -/
def tallyOne : Option LockType → LockType → Nat
  | some t, m => if t = m then 1 else 0
  | none, _ => 0

/-- Number of live instances currently holding mode `m`. -/
def tally : List (Option LockType) → LockType → Nat
  | [], _ => 0
  | o :: l, m => tallyOne o m + tally l m

/-- The node invariant: every mode's counter equals the number of live
instances currently holding that mode. -/
def NodeInv (st : NodeSt) : Prop := ∀ m : LockType, st.counts.get m = tally st.insts m

lemma get_inc (c : Counts) (t m : LockType) :
    (c.inc t).get m = c.get m + tallyOne (some t) m := by
  cases t <;> cases m <;> simp [Counts.inc, Counts.set, Counts.get, tallyOne]

lemma get_dec (c : Counts) (f m : LockType) (h : 1 ≤ c.get f) :
    (c.dec f).get m + tallyOne (some f) m = c.get m := by
  revert h
  cases f <;> cases m <;>
    simp [Counts.dec, Counts.set, Counts.get, tallyOne] <;> omega

lemma tally_append (l1 l2 : List (Option LockType)) (m : LockType) :
    tally (l1 ++ l2) m = tally l1 m + tally l2 m := by
  induction l1 with
  | nil => simp [tally]
  | cons o l ih => simp [tally, ih]; omega

lemma tally_set (l : List (Option LockType)) (i : Nat) (a b : Option LockType)
    (h : l[i]? = some a) (m : LockType) :
    tally (l.set i b) m + tallyOne a m = tally l m + tallyOne b m := by
  induction l generalizing i with
  | nil => simp at h
  | cons o l ih =>
    cases i with
    | zero =>
      simp at h
      subst h
      simp [tally]
      omega
    | succ n =>
      simp at h
      have := ih n h
      simp [tally, List.set]
      omega

lemma tally_pos (l : List (Option LockType)) (i : Nat) (f : LockType)
    (h : l[i]? = some (some f)) : 1 ≤ tally l f := by
  induction l generalizing i with
  | nil => simp at h
  | cons o l ih =>
    cases i with
    | zero =>
      simp at h
      subst h
      simp [tally, tallyOne]
    | succ n =>
      simp at h
      have := ih n h
      simp [tally]
      omega

lemma acquireRoot_ok (c : Counts) (m : LockType) (tr : Bool) (c' : Counts) (v : LockType)
    (h : acquireRoot c m tr = .ok c' v) : c' = c.inc m := by
  unfold acquireRoot at h
  split at h
  · obtain ⟨h1, h2⟩ := (KResult.ok.injEq _ _ _ _).mp h
    subst h2
    exact h1.symm
  · split at h <;> simp_all

lemma upgradeRoot_ok (c : Counts) (f t : LockType) (tr : Bool) (c' : Counts)
    (h : upgradeRoot c f t tr = .ok c' ()) :
    (f = t ∧ c' = c) ∨ c' = (c.dec f).inc t := by
  unfold upgradeRoot at h
  split at h
  · left; simp_all
  · split at h
    · simp_all
    · split at h
      · right; simp_all
      · split at h <;> simp_all

lemma step_inv (st : NodeSt) (op : Op) (h : NodeInv st) : NodeInv (step st op) := by
  cases op with
  | acq m =>
    simp only [step]
    split
    case h_1 c v heq =>
      have hc := acquireRoot_ok _ _ _ _ _ heq
      subst hc
      intro m'
      have hm := h m'
      show (st.counts.inc m).get m' = tally (st.insts ++ [some m]) m'
      rw [get_inc, tally_append]
      simp only [tally]
      omega
    case h_2 => exact h
  | upg i t =>
    simp only [step]
    split
    case h_1 f hf =>
      split
      case h_1 c v heq =>
        intro m'
        have hset := tally_set st.insts i (some f) (some t) hf m'
        have hm := h m'
        rcases upgradeRoot_ok _ _ _ _ _ heq with ⟨hft, hc⟩ | hc
        · subst hft
          subst hc
          show st.counts.get m' = tally (st.insts.set i (some f)) m'
          omega
        · subst hc
          have hpos := tally_pos st.insts i f hf
          have hf2 := h f
          have hdec := get_dec st.counts f m' (by omega)
          show ((st.counts.dec f).inc t).get m' = tally (st.insts.set i (some t)) m'
          rw [get_inc]
          omega
      case h_2 => exact h
    case h_2 => exact h
  | rel i =>
    simp only [step]
    split
    case h_1 f hf =>
      intro m'
      have hset := tally_set st.insts i (some f) none hf m'
      have hpos := tally_pos st.insts i f hf
      have hf2 := h f
      have hm := h m'
      have hdec := get_dec st.counts f m' (by omega)
      simp only [tallyOne] at hset hdec
      show (st.counts.dec f).get m' = tally (st.insts.set i none) m'
      omega
    case h_2 => exact h

lemma foldl_inv (ops : List Op) (st : NodeSt) (h : NodeInv st) :
    NodeInv (ops.foldl step st) := by
  induction ops generalizing st with
  | nil => exact h
  | cons op ops ih => exact ih _ (step_inv _ _ h)

lemma run_inv (ops : List Op) : NodeInv (run ops) :=
  foldl_inv ops _ (by intro m; cases m <;> rfl)

lemma tally_all_none (l : List (Option LockType)) (h : ∀ o ∈ l, o = none)
    (m : LockType) : tally l m = 0 := by
  induction l with
  | nil => rfl
  | cons o l ih =>
    have ho : o = none := h o (by simp)
    subst ho
    simp only [tally, tallyOne, Nat.zero_add]
    exact ih fun o hm => h o (by simp [hm])

/-- Claim C1: on a kernel node where a lock of mode T is currently granted
(counts of T equal 1, all other counts 0), a try-only acquire of mode T'
succeeds iff `compatible_with(T, T')` per the compatibility table; on
failure it returns `LockBusy` with the counts untouched. -/
theorem C1_acquire_iff_compatible : ∀ t tp : LockType,
    if t.compatible_with tp then
      acquireRoot (singleCount t) tp true = .ok ((singleCount t).inc tp) tp
    else
      acquireRoot (singleCount t) tp true = .err .LockBusy (singleCount t) := by
  decide

/-- Claim C2: when a single instance holds T on a kernel node, a try-only
upgrade from T to T' succeeds iff `upgradable_to(T, T')`; on success the
counts become a single grant of T', so a subsequent try-acquire of any T''
succeeds iff `compatible_with(T', T'')`; on failure it returns
`InvalidUpgrade`.  The readiness check tolerates the holder's own count of
T. -/
theorem C2_upgrade_iff_upgradable : ∀ t tp ts : LockType,
    if t.upgradable_to tp then
      upgradeRoot (singleCount t) t tp true = .ok (singleCount tp) () ∧
      ((acquireRoot (singleCount tp) ts true).isOk = true ↔ tp.compatible_with ts = true)
    else
      upgradeRoot (singleCount t) t tp true
        = .err (.InvalidUpgrade t tp) (singleCount t) := by
  decide

/-- Claim C3: an acquire of mode T on a child kernel with no explicit
parent grant recursively obtains a grant of `implicit_parent(T)` on the
parent node (recorded in the returned instance), and a try-only acquire of
T' on the parent then succeeds iff
`compatible_with(implicit_parent(T), T')`. -/
theorem C3_implicit_parent_acquire : ∀ t tp : LockType,
    acquireChildNoGrant ⟨Counts.zero, Counts.zero⟩ t true =
      .ok ⟨singleCount t.implicit_parent_type, singleCount t⟩ ⟨t, t.implicit_parent_type⟩ ∧
    ((acquireRoot (singleCount t.implicit_parent_type) tp true).isOk = true ↔
      t.implicit_parent_type.compatible_with tp = true) := by
  decide

/-- Claim C7 (counterexample): `supports_children(IS, IX)` is `false` in
the table, yet `implicit_parent(IX) = IX` is compatible with IS, so the
claimed equivalence with the compatibility table fails at
(parent, child) = (IS, IX). -/
theorem C7_counterexample :
    ¬ (LockType.IntentionShared.supports_children .IntentionExclusive =
        (LockType.IntentionExclusive.implicit_parent_type.compatible_with
          .IntentionShared)) := by
  decide

/-- Claim C7 (amended): `supports_children(parent, child)` is true iff
`parent` is reachable from `implicit_parent(child)` in the upgrade lattice
(the parent mode is at least as restrictive as the child's implicit
requirement), not iff the two are compatible. -/
theorem C7_supports_children_amended : ∀ p c : LockType,
    p.supports_children c = c.implicit_parent_type.upgradable_to p := by
  decide

/-- Claim C8: `min_upgradable(a, b)` equals the first mode in the canonical
order IS, IX, S, SIX, X reachable from both `a` and `b` by
`upgradable_to`; consequently it is commutative and idempotent. -/
theorem C8_min_upgradable_first_common : ∀ a b : LockType,
    lock_types.find? (fun lt => a.upgradable_to lt && b.upgradable_to lt)
      = some (a.min_upgradable b) ∧
    a.min_upgradable b = b.min_upgradable a ∧
    a.min_upgradable a = a := by
  decide

/-- Claim C10: Exclusive is reachable from every mode, so the
`min_upgradable` scan always finds a common upgrade target inside the loop
and the trailing `return LockType::Exclusive` fallback is unreachable. -/
theorem C10_min_upgradable_scan_total : ∀ a b : LockType,
    a.upgradable_to .Exclusive = true ∧ b.upgradable_to .Exclusive = true ∧
    (lock_types.find? (fun lt => a.upgradable_to lt && b.upgradable_to lt)).isSome
      = true := by
  decide

/-- Claim C9: an upgrade whose target mode equals the instance's current
mode F returns Ok immediately, for every parent-grant argument (including
none, or one failing the `ptr_eq` identity check), every `auto_upgrade`
and every `try_only`; all counts and the instance's stored mode are left
unchanged, and no `InvalidParentLock` is produced. -/
theorem C9_upgrade_to_same_mode : ∀ (s : Sys) (f : LockType) (g : Option Grant)
    (autoUpgrade tryOnly : Bool),
    upgradeChild s f f g autoUpgrade tryOnly = .ok (s, g) () ∧
    lockInstanceUpgrade s f g f autoUpgrade tryOnly = .ok (s, g) f := by
  intro s f g a tr
  constructor
  · simp [upgradeChild]
  · simp [lockInstanceUpgrade, upgradeChild]

lemma counts_eq_zero (c : Counts) (h : ∀ m : LockType, c.get m = 0) : c = Counts.zero := by
  obtain ⟨a, b, c2, d, e⟩ := c
  have h1 := h .IntentionShared
  have h2 := h .IntentionExclusive
  have h3 := h .Shared
  have h4 := h .SharedIntentionExclusive
  have h5 := h .Exclusive
  simp only [Counts.get] at h1 h2 h3 h4 h5
  subst h1 h2 h3 h4 h5
  rfl

/-- Claim C5: after any finite sequence of try-acquire and try-upgrade
operations on a kernel node in which every created lock instance is
eventually destroyed (each successful acquire's increment matched by a
destructor decrement of the instance's current mode), all five counts are
zero again and a fresh try-acquire of any mode succeeds. -/
theorem C5_balanced_release (ops : List Op)
    (h : ∀ o ∈ (run ops).insts, o = none) :
    (run ops).counts = Counts.zero ∧
    ∀ m : LockType, acquireRoot (run ops).counts m true = .ok (Counts.zero.inc m) m := by
  have hinv := run_inv ops
  have hz : ∀ m : LockType, (run ops).counts.get m = 0 := fun m => by
    rw [hinv m]
    exact tally_all_none _ h m
  have hc : (run ops).counts = Counts.zero := counts_eq_zero _ hz
  refine ⟨hc, fun m => ?_⟩
  rw [hc]
  have hready : acquireReady Counts.zero m = true := by cases m <;> decide
  simp [acquireRoot, hready]

theorem C5_witness :
    (run [Op.acq .Shared, Op.acq .IntentionShared, Op.upg 0 .Exclusive, Op.rel 0,
          Op.rel 1]).counts = Counts.zero :=
  (C5_balanced_release _ (by decide)).1

lemma dec_inc (c : Counts) (t : LockType) : (c.inc t).dec t = c := by
  obtain ⟨a, b, c2, d, e⟩ := c
  cases t <;> simp [Counts.inc, Counts.dec, Counts.set, Counts.get]

lemma ensureParentGrant_ok_child (s : Sys) (m : LockType) (g : Grant) (a tr : Bool)
    (s1 : Sys) (g1 : Grant) (v : Unit)
    (h : ensureParentGrant s m g a tr = .ok (s1, g1) v) : s1.child = s.child := by
  simp only [ensureParentGrant] at h
  repeat' split at h
  all_goals first
    | exact KResult.noConfusion h
    | (injection h with h1 h2
       injection h1 with ha hb
       subst ha
       rfl)

lemma ensureParentGrant_err_child (s : Sys) (m : LockType) (g : Grant) (a tr : Bool)
    (e : LockError) (s1 : Sys) (g1 : Grant)
    (h : ensureParentGrant s m g a tr = .err e (s1, g1)) : s1.child = s.child := by
  simp only [ensureParentGrant] at h
  repeat' split at h
  all_goals first
    | exact KResult.noConfusion h
    | (injection h with h1 h2
       injection h2 with ha hb
       subst ha
       rfl)

lemma acquireRoot_ok_eq (c : Counts) (m : LockType) (tr : Bool) (c2 : Counts) (v : LockType)
    (h : acquireRoot c m tr = .ok c2 v) : c2 = c.inc m ∧ v = m := by
  unfold acquireRoot at h
  split at h
  · obtain ⟨h1, h2⟩ := (KResult.ok.injEq _ _ _ _).mp h
    exact ⟨h1.symm, h2.symm⟩
  · split at h
    · exact KResult.noConfusion h
    · exact KResult.noConfusion h

/-- Claim C6: every failing acquire or upgrade leaves the target node's
counts unchanged — a try-only readiness failure returning `LockBusy`, an
invalid upgrade returning `InvalidUpgrade` (in particular
upgrade(Shared, IntentionExclusive)), and any error propagated out of
`ensure_parent_lock`, all return before any count on the target node is
touched; an acquire on a child with no grant even restores the parent
count its implicit grant briefly took. -/
theorem C6_failure_leaves_counts :
    (∀ (c : Counts) (m : LockType) (tr : Bool) (e : LockError) (c2 : Counts),
      acquireRoot c m tr = .err e c2 → c2 = c) ∧
    (∀ (c : Counts) (f t : LockType) (tr : Bool) (e : LockError) (c2 : Counts),
      upgradeRoot c f t tr = .err e c2 → c2 = c) ∧
    (∀ (c : Counts) (f t : LockType) (tr : Bool), f ≠ t → f.upgradable_to t = false →
      upgradeRoot c f t tr = .err (.InvalidUpgrade f t) c) ∧
    (∀ (c : Counts) (tr : Bool),
      upgradeRoot c .Shared .IntentionExclusive tr
        = .err (.InvalidUpgrade .Shared .IntentionExclusive) c) ∧
    (∀ (s : Sys) (m : LockType) (tr : Bool) (e : LockError) (s2 : Sys),
      acquireChildNoGrant s m tr = .err e s2 → s2 = s) ∧
    (∀ (s : Sys) (m : LockType) (g : Grant) (a tr : Bool) (e : LockError)
        (s2 : Sys) (g2 : Grant),
      acquireChildGrant s m g a tr = .err e (s2, g2) → s2.child = s.child) ∧
    (∀ (s : Sys) (f t : LockType) (g : Option Grant) (a tr : Bool) (e : LockError)
        (s2 : Sys) (g2 : Option Grant),
      upgradeChild s f t g a tr = .err e (s2, g2) → s2.child = s.child) := by
  refine ⟨?_, ?_, ?_, ?_, ?_, ?_, ?_⟩
  · intro c m tr e c2 h
    unfold acquireRoot at h
    repeat' split at h
    all_goals first
      | exact KResult.noConfusion h
      | (injection h with h1 h2; exact h2.symm)
  · intro c f t tr e c2 h
    unfold upgradeRoot at h
    repeat' split at h
    all_goals first
      | exact KResult.noConfusion h
      | (injection h with h1 h2; exact h2.symm)
  · intro c f t tr hne hup
    unfold upgradeRoot
    rw [if_neg hne, hup]
    rfl
  · intro c tr
    unfold upgradeRoot
    rfl
  · intro s m tr e s2 h
    unfold acquireChildNoGrant at h
    split at h
    case h_1 => exact KResult.noConfusion h
    case h_2 e1 pc heq =>
      have hpc : pc = s.parent := by
        unfold acquireRoot at heq
        repeat' split at heq
        all_goals first
          | exact KResult.noConfusion heq
          | (injection heq with h1 h2; exact h2.symm)
      injection h with h1 h2
      rw [← h2, hpc]
    case h_3 pc pm heq =>
      obtain ⟨hpc, hpm⟩ := acquireRoot_ok_eq _ _ _ _ _ heq
      split at h
      · exact KResult.noConfusion h
      · split at h
        · injection h with h1 h2
          rw [← h2, hpc, hpm, dec_inc]
        · exact KResult.noConfusion h
  · intro s m g a tr e s2 g2 h
    unfold acquireChildGrant at h
    split at h
    case h_1 => exact KResult.noConfusion h
    case h_2 e1 st heq =>
      injection h with h1 h2
      subst h2
      exact ensureParentGrant_err_child _ _ _ _ _ _ _ _ heq
    case h_3 sa ga v heq =>
      have hch := ensureParentGrant_ok_child _ _ _ _ _ _ _ _ heq
      split at h
      · exact KResult.noConfusion h
      · split at h
        · injection h with h1 h2
          injection h2 with ha hb
          rw [← ha]
          exact hch
        · exact KResult.noConfusion h
  · intro s f t g a tr e s2 g2 h
    unfold upgradeChild at h
    split at h
    · exact KResult.noConfusion h
    · split at h
      · injection h with h1 h2
        injection h2 with ha hb
        rw [← ha]
      · split at h
        case h_1 gr =>
          split at h
          case h_1 => exact KResult.noConfusion h
          case h_2 e1 st heq =>
            obtain ⟨sa, ga⟩ := st
            injection h with h1 h2
            injection h2 with ha hb
            rw [← ha]
            exact ensureParentGrant_err_child _ _ _ _ _ _ _ _ heq
          case h_3 sa ga v heq =>
            have hch := ensureParentGrant_ok_child _ _ _ _ _ _ _ _ heq
            split at h
            · exact KResult.noConfusion h
            · split at h
              · injection h with h1 h2
                injection h2 with ha hb
                rw [← ha]
                exact hch
              · exact KResult.noConfusion h
        case h_2 =>
          split at h
          case h_1 => exact KResult.noConfusion h
          case h_2 e1 pc heq =>
            injection h with h1 h2
            injection h2 with ha hb
            rw [← ha]
          case h_3 pc pm heq =>
            split at h
            · exact KResult.noConfusion h
            · split at h
              · injection h with h1 h2
                injection h2 with ha hb
                rw [← ha]
              · exact KResult.noConfusion h

theorem C6_witness :
    upgradeRoot (singleCount .Shared) .Shared .IntentionExclusive true
      = .err (.InvalidUpgrade .Shared .IntentionExclusive) (singleCount .Shared) ∧
    (singleCount .Exclusive) = (singleCount .Exclusive) ∧
    (⟨singleCount .Exclusive, Counts.zero⟩ : Sys) = ⟨singleCount .Exclusive, Counts.zero⟩ :=
  ⟨C6_failure_leaves_counts.2.2.2.1 (singleCount .Shared) true,
   C6_failure_leaves_counts.1 (singleCount .Exclusive) .Shared true .LockBusy
     (singleCount .Exclusive) (by decide),
   C6_failure_leaves_counts.2.2.2.2.1 ⟨singleCount .Exclusive, Counts.zero⟩ .Shared true
     .LockBusy ⟨singleCount .Exclusive, Counts.zero⟩ (by decide)⟩

lemma ensureParentGrant_insufficient_noauto (s : Sys) (m : LockType) (g : Grant) (tr : Bool)
    (hptr : g.ptrEq = true) (hlt : g.mode.index < m.implicit_parent_type.index) :
    ensureParentGrant s m g false tr
      = .err (.InvalidParentLockType m.implicit_parent_type g.mode) (s, g) := by
  simp [ensureParentGrant, hptr, hlt]

lemma ensureParentGrant_insufficient_auto (s : Sys) (m : LockType) (g : Grant) (tr : Bool)
    (hptr : g.ptrEq = true) (hlt : g.mode.index < m.implicit_parent_type.index)
    (pc : Counts)
    (hup : upgradeRoot s.parent g.mode (g.mode.min_upgradable m.implicit_parent_type) tr
      = .ok pc ()) :
    ensureParentGrant s m g true tr
      = .ok (⟨pc, s.child⟩, ⟨g.ptrEq, g.mode.min_upgradable m.implicit_parent_type⟩) () := by
  simp [ensureParentGrant, hptr, hlt, hup]

/-- Claim C4: when acquire or upgrade for target mode M is given an
explicit parent grant P whose current mode A has index strictly below
index of R = implicit_parent(M), then with auto_upgrade disabled the call
fails with `InvalidParentLockType` and the whole state (this node's counts
included) is untouched, and with auto_upgrade enabled P is upgraded to
`min_upgradable(A, R)` before this node's counts are examined — for both
acquire and upgrade the grant carries the upgraded mode in the outcome
even when the subsequent readiness phase fails with `LockBusy`.  (An
upgrade reaches the parent check only when its from-mode differs from M
and is upgradable to M; the earlier no-op and `InvalidUpgrade` returns
fire first otherwise.) -/
theorem C4_insufficient_parent_grant (s : Sys) (m : LockType) (g : Grant) (tryOnly : Bool)
    (hptr : g.ptrEq = true)
    (hlt : g.mode.index < m.implicit_parent_type.index) :
    (acquireChildGrant s m g false tryOnly
        = .err (.InvalidParentLockType m.implicit_parent_type g.mode) (s, g)) ∧
    (∀ f : LockType, f ≠ m → f.upgradable_to m = true →
      upgradeChild s f m (some g) false tryOnly
        = .err (.InvalidParentLockType m.implicit_parent_type g.mode) (s, some g)) ∧
    (∀ pc : Counts,
      upgradeRoot s.parent g.mode (g.mode.min_upgradable m.implicit_parent_type) tryOnly
          = .ok pc () →
      acquireChildGrant s m g true tryOnly =
        (if acquireReady s.child m then
          .ok (⟨pc, s.child.inc m⟩, ⟨g.ptrEq, g.mode.min_upgradable m.implicit_parent_type⟩) m
        else if tryOnly then
          .err .LockBusy (⟨pc, s.child⟩, ⟨g.ptrEq, g.mode.min_upgradable m.implicit_parent_type⟩)
        else .blocked)) ∧
    (∀ f : LockType, f ≠ m → f.upgradable_to m = true →
      ∀ pc : Counts,
      upgradeRoot s.parent g.mode (g.mode.min_upgradable m.implicit_parent_type) tryOnly
          = .ok pc () →
      upgradeChild s f m (some g) true tryOnly =
        (if upgradeReady s.child f m then
          .ok (⟨pc, (s.child.dec f).inc m⟩,
            some ⟨g.ptrEq, g.mode.min_upgradable m.implicit_parent_type⟩) ()
        else if tryOnly then
          .err .LockBusy (⟨pc, s.child⟩,
            some ⟨g.ptrEq, g.mode.min_upgradable m.implicit_parent_type⟩)
        else .blocked)) := by
  refine ⟨?_, ?_, ?_, ?_⟩
  · simp only [acquireChildGrant, ensureParentGrant_insufficient_noauto s m g tryOnly hptr hlt]
  · intro f hne hup2
    simp only [upgradeChild, if_neg hne, hup2, Bool.not_true, Bool.false_eq_true, if_false,
      ensureParentGrant_insufficient_noauto s m g tryOnly hptr hlt]
  · intro pc hup
    simp only [acquireChildGrant,
      ensureParentGrant_insufficient_auto s m g tryOnly hptr hlt pc hup]
  · intro f hne hup2 pc hup
    simp only [upgradeChild, if_neg hne, hup2, Bool.not_true, Bool.false_eq_true, if_false,
      ensureParentGrant_insufficient_auto s m g tryOnly hptr hlt pc hup]

theorem C4_witness :
    acquireChildGrant ⟨singleCount .IntentionShared, Counts.zero⟩ .Exclusive
        ⟨true, .IntentionShared⟩ false true
      = .err (.InvalidParentLockType .IntentionExclusive .IntentionShared)
          (⟨singleCount .IntentionShared, Counts.zero⟩, ⟨true, .IntentionShared⟩) ∧
    upgradeChild ⟨singleCount .IntentionShared, Counts.zero⟩ .Shared .Exclusive
        (some ⟨true, .IntentionShared⟩) false true
      = .err (.InvalidParentLockType .IntentionExclusive .IntentionShared)
          (⟨singleCount .IntentionShared, Counts.zero⟩, some ⟨true, .IntentionShared⟩) ∧
    upgradeChild ⟨singleCount .IntentionShared, singleCount .Shared⟩ .Shared .Exclusive
        (some ⟨true, .IntentionShared⟩) true true
      = .ok (⟨singleCount .IntentionExclusive, singleCount .Exclusive⟩,
          some ⟨true, .IntentionExclusive⟩) () :=
  ⟨(C4_insufficient_parent_grant _ _ _ _ rfl (by decide)).1,
   (C4_insufficient_parent_grant _ _ _ _ rfl (by decide)).2.1 .Shared (by decide) (by decide),
   by
    have h := (C4_insufficient_parent_grant ⟨singleCount .IntentionShared, singleCount .Shared⟩
      .Exclusive ⟨true, .IntentionShared⟩ true rfl (by decide)).2.2.2 .Shared (by decide)
      (by decide) (singleCount .IntentionExclusive) (by decide)
    simpa using h⟩
